import Mathlib

/-!
Verification of the template processing engine of the `template_generator`
repository against its natural-language specification.

The development shallowly embeds the three components the claims are about:

* the Render Engine (`Processor.processString` in
  `internal/template/processor.go`), which delegates to Go's
  `text/template` package.  We model the fragment of that template
  language the repository's templates exercise: literal text and field
  actions of the shape open-brace open-brace dot name close-brace
  close-brace over a variable-binding map, with the package's *default*
  `missingkey` behavior (an absent key renders as the literal text
  `<no value>` and execution succeeds).  Malformed or unsupported action
  text is a parse (syntax) error, as in the source.
* the Template Descriptor Model (`internal/config/config.go`):
  `LoadTemplate`'s post-parse normalization, `validateVariable`,
  `validateValueType` and `Template.Validate`.  TOML deserialization and
  file I/O are not modelled; the normalization and validation logic is
  translated directly.
* the Tree Processor (`Processor.Process`, `Processor.processFile`):
  `filepath.WalkDir` is modelled as a pre-order walk of an in-memory
  file tree (Go's `WalkDir` visits the root entry itself first and then
  descends, reading each directory in lexical filename order; the model
  takes the children lists in the given order).  Filesystem mutations
  (`os.MkdirAll`, `os.WriteFile`) are recorded as an ordered effect list
  instead of being performed, and the walk's fail-fast error propagation
  is threaded explicitly.  Binding values are kept in their rendered
  (string) form.

Path arithmetic (`filepath.Join`, `filepath.Rel`, `filepath.Dir`,
`filepath.Base`, `filepath.Clean`) is modelled lexically for the clean,
slash-separated, relative paths the walk produces.
-/

/-- Error kinds of the Render Engine: a template that cannot be parsed
(`TemplateSyntaxError` in the spec's vocabulary) versus a failure while
executing a parsed template (`TemplateExecutionError`). -/
inductive TemplateError
  | syntaxError (msg : String)
  | executionError (msg : String)
deriving DecidableEq

/-- A parsed template: literal text interleaved with field actions.  A
field action `field nm` stands for the source text open-brace open-brace
dot nm close-brace close-brace. -/
inductive Tok
  | lit (cs : List Char)
  | field (nm : String)
deriving DecidableEq

/-- Characters Go's template parser accepts inside a field name. -/
def isIdentChar (c : Char) : Bool :=
  c.isAlphanum || c = '_'

/-- Prepend one literal character to a token list, merging with a
leading literal token. -/
def consLit (c : Char) : List Tok → List Tok
  | .lit cs :: ts => .lit (c :: cs) :: ts
  | ts => .lit [c] :: ts

/-- State of the template scanner: in literal text, after the opening
braces of an action, reading a field name (accumulated reversed), or
looking for the closing braces. -/
inductive ScanMode
  | text
  | openA
  | identA (acc : List Char)
  | closeA (nm : List Char)
  | close1 (nm : List Char)

/-- Scanner for the modelled fragment of Go's `text/template` syntax:
literal text plus field actions.  Any action that is not a plain field
access is rejected as a syntax error, as is an unterminated action. -/
def scanCore : ScanMode → List Char → Except TemplateError (List Tok)
  | .text, [] => .ok []
  | .text, '{' :: '{' :: rest => scanCore .openA rest
  | .text, c :: rest => (scanCore .text rest).map (consLit c)
  | .openA, ' ' :: rest => scanCore .openA rest
  | .openA, '.' :: rest => scanCore (.identA []) rest
  | .openA, _ => .error (.syntaxError "unsupported action")
  | .identA acc, c :: rest =>
      if isIdentChar c then scanCore (.identA (c :: acc)) rest
      else if acc.isEmpty then .error (.syntaxError "expected field name")
      else if c = ' ' then scanCore (.closeA acc) rest
      else if c = '}' then scanCore (.close1 acc) rest
      else .error (.syntaxError "bad character in action")
  | .identA _, [] => .error (.syntaxError "unclosed action")
  | .closeA nm, ' ' :: rest => scanCore (.closeA nm) rest
  | .closeA nm, '}' :: rest => scanCore (.close1 nm) rest
  | .closeA _, _ => .error (.syntaxError "unclosed action")
  | .close1 nm, '}' :: rest =>
      (scanCore .text rest).map (fun ts => .field (String.mk nm.reverse) :: ts)
  | .close1 _, _ => .error (.syntaxError "unclosed action")

instance {e a : Type} [DecidableEq e] [DecidableEq a] : DecidableEq (Except e a) := fun x y =>
  match x, y with
  | .ok u, .ok v =>
      if h : u = v then .isTrue (by rw [h]) else .isFalse (by intro hh; cases hh; exact h rfl)
  | .error u, .error v =>
      if h : u = v then .isTrue (by rw [h]) else .isFalse (by intro hh; cases hh; exact h rfl)
  | .ok _, .error _ => .isFalse (by intro hh; cases hh)
  | .error _, .ok _ => .isFalse (by intro hh; cases hh)

/-- Lookup in the variable-binding map (Go: `map[string]any`; values are
kept in their rendered string form). -/
def lookupVar (vars : List (String × String)) (nm : String) : Option String :=
  match vars with
  | [] => none
  | (k, v) :: rest => if k = nm then some v else lookupVar rest nm

/-- Execute one token against the bindings.  A field whose name is
absent from the bindings renders as the literal text `<no value>` — the
default `missingkey` behavior of Go's `text/template` (the source never
installs `Option("missingkey=error")`). -/
def execTok (vars : List (String × String)) : Tok → List Char
  | .lit cs => cs
  | .field nm =>
      match lookupVar vars nm with
      | some v => v.data
      | none => "<no value>".data

/-- Execute a token list left to right, concatenating the output. -/
def execToks (vars : List (String × String)) : List Tok → List Char
  | [] => []
  | t :: ts => execTok vars t ++ execToks vars ts

/-- Model of `Processor.processString`: parse the text as a template and
execute it against the processor's variables.  In the modelled fragment
execution always succeeds (missing keys substitute `<no value>`), so
every error produced is a parse error. -/
def processString (vars : List (String × String)) (s : String) :
    Except TemplateError String :=
  match scanCore .text s.data with
  | .error e => .error e
  | .ok ts => .ok (String.mk (execToks vars ts))

/-- Runtime shape of a dynamically typed TOML value as `validateValueType`
inspects it (`any` in the Go source).  The payload of a float is
irrelevant to every validation rule, so it carries none. -/
inductive GoValue
  | goString (s : String)
  | goInt (n : Int)
  | goFloat
  | goBool (b : Bool)
  | goArray (xs : List GoValue)

/-- Go type name of a value, as fmt's %T verb would print it for the
shapes go-toml produces (quoting elided from messages). -/
def goTypeName : GoValue → String
  | .goString _ => "string"
  | .goInt _ => "int64"
  | .goFloat => "float64"
  | .goBool _ => "bool"
  | .goArray _ => "[]interface \x7b\x7d"

/-- The reserved per-template descriptor filename (`config.TemplateConfigFile`). -/
def TemplateConfigFile : String := "template.toml"

/-- `config.Metadata`. -/
structure Metadata where
  Name : String
  Description : String
  Author : String

/-- `config.Variable`: optional default value, description, declared type
(empty string when the TOML key is absent).  The Go field is named
`Type`; that is a keyword in Lean, so it is called `VarType` here. -/
structure Variable where
  Default : Option GoValue
  Description : String
  VarType : String

/-- `config.Rules`. -/
structure Rules where
  Ignores : List String
  Includes : List String
  Renames : List (String × String)

/-- `config.Template`.  The Go `map[string]Variable` is modelled as an
association list; iteration order of a Go map is unspecified, the list
order stands in for one such order. -/
structure Template where
  Metadata : Metadata
  Variables : List (String × Variable)
  Rules : Rules
  Version : String

/-- `config.validateValueType`: check that a value's runtime shape
matches a declared type.  Faithfully to the Go switch, an unrecognized
`expectedType` falls through and succeeds.  Error messages elide the
quoting of the Go originals. -/
def validateValueType (value : GoValue) (expectedType : String) : Except String Unit :=
  match expectedType with
  | "string" =>
      match value with
      | .goString _ => .ok ()
      | v => .error ("expected string, got " ++ goTypeName v)
  | "number" =>
      match value with
      | .goInt _ => .ok ()
      | .goFloat => .ok ()
      | v => .error ("expected number, got " ++ goTypeName v)
  | "boolean" =>
      match value with
      | .goBool _ => .ok ()
      | v => .error ("expected boolean, got " ++ goTypeName v)
  | "array" =>
      match value with
      | .goArray _ => .ok ()
      | v => .error ("expected array, got " ++ goTypeName v)
  | _ => .ok ()

/-- `config.validateVariable`: a non-empty declared type must be one of
the four recognized kinds, and a present default value must match a
present declared type. -/
def validateVariable (name : String) (v : Variable) : Except String Unit :=
  let validTypes : List String := ["string", "number", "boolean", "array"]
  if v.VarType ≠ "" ∧ ¬ validTypes.contains v.VarType then
    .error ("variable " ++ name ++ ": invalid type " ++ v.VarType)
  else
    match v.Default with
    | none => .ok ()
    | some value =>
        if v.VarType ≠ "" then
          match validateValueType value v.VarType with
          | .error e => .error ("variable " ++ name ++ ": default value error: " ++ e)
          | .ok _ => .ok ()
        else .ok ()

/-- First-error fold of `validateVariable` over the declared variables,
as the loop in `Template.Validate` does. -/
def validateVars : List (String × Variable) → Except String Unit
  | [] => .ok ()
  | (nm, v) :: rest =>
      match validateVariable nm v with
      | .error e => .error e
      | .ok _ => validateVars rest

/-- `config.Template.Validate`. -/
def Template.validate (t : Template) : Except String Unit :=
  if t.Metadata.Name = "" then .error "template name is required"
  else validateVars t.Variables

/-- `filepath.Base` for slash paths: the last path segment. -/
def baseName (p : String) : String :=
  String.mk (p.data.reverse.takeWhile (fun c => ¬ c = '/')).reverse

/-- Post-parse normalization performed by `config.LoadTemplate` (lines
106–119): default the metadata name to the template directory's base
name, and rewrite an empty declared type to `"any"`.  Reading and TOML
decoding of the descriptor file are outside the model; `t` is the
decoded template. -/
def loadTemplateNormalize (dir : String) (t : Template) : Template :=
  let t1 := if t.Metadata.Name = "" then { t with Metadata.Name := baseName dir } else t
  { t1 with
    Variables := t1.Variables.map
      (fun p => (p.1, if p.2.VarType = "" then { p.2 with VarType := "any" } else p.2)) }

/-- An in-memory template file tree: what `filepath.WalkDir` traverses.
Directory children are listed in the order `WalkDir` enumerates them
(lexical filename order on a real filesystem). -/
inductive FSEntry
  | file (nm : String) (content : String)
  | dir (nm : String) (children : List FSEntry)

/-- Base name of an entry (`fs.DirEntry.Name()`). -/
def entryName : FSEntry → String
  | .file nm _ => nm
  | .dir nm _ => nm

/-- A filesystem mutation performed by the processor: `os.MkdirAll` with
mode 0755 or `os.WriteFile` with mode 0644. -/
inductive FSOp
  | mkdirAll (path : String)
  | writeFile (path : String) (content : String)
deriving DecidableEq

/-- The path an operation mutates. -/
def opPath : FSOp → String
  | .mkdirAll p => p
  | .writeFile p _ => p

/-- `template.ProcessResult`. -/
structure ProcessResult where
  FilesCreated : Nat
  DirsCreated : Nat
  CreatedFiles : List String
deriving DecidableEq

/-- Errors returned by the walk callback, mirroring the wrapping in the
source: a path-render failure is wrapped with the entry's base name
("failed to process output path"), a file-processing failure with the
entry's template-relative path ("failed to process file"). -/
inductive ProcError
  | pathError (nm : String) (e : TemplateError)
  | fileError (rel : String) (e : TemplateError)
deriving DecidableEq

/-- Mutable state threaded through the walk: the accumulating
`ProcessResult` plus the ordered list of filesystem mutations performed
so far. -/
structure WalkState where
  result : ProcessResult
  effects : List FSOp
deriving DecidableEq

/-- `filepath.Rel` composition along the walk: the relative path of a
child of the entry at relative path `rel` (the root's relative path is
`"."`). -/
def joinRel (rel nm : String) : String :=
  if rel = "." then nm else rel ++ "/" ++ nm

/-- `filepath.Join outputDir rel` for a clean `outputDir` and a relative
path produced by the walk (`Join(out, ".")` cleans to `out`). -/
def joinPath (out rel : String) : String :=
  if rel = "." then out else out ++ "/" ++ rel

/-- Helper for `parentDir`: given the reversed characters of a path,
drop the last segment and its slash, returning the reversed prefix. -/
def parentDirAux : List Char → Option (List Char)
  | [] => none
  | '/' :: rest => some rest
  | _ :: rest => parentDirAux rest

/-- `filepath.Dir` for slash paths: everything before the last slash, or
`"."` when there is none. -/
def parentDir (p : String) : String :=
  match parentDirAux p.data.reverse with
  | some revPre => String.mk revPre.reverse
  | none => "."

/-- `Processor.processFile` on a file whose raw content is `content`
(the model filesystem always yields the tree's stored content, so the
`os.ReadFile` step cannot fail): render the content with the same
bindings, ensure the rendered output path's parent directory exists, and
write the rendered bytes, overwriting any pre-existing file.  Returns
the mutations to perform, or the first error. -/
def processFile (vars : List (String × String)) (content outputPath : String) :
    Except TemplateError (List FSOp) :=
  match processString vars content with
  | .error err => .error err
  | .ok processed => .ok [.mkdirAll (parentDir outputPath), .writeFile outputPath processed]

mutual
/-- One step of the `filepath.WalkDir` callback in `Processor.Process`,
applied to the entry `e` whose path relative to the template root is
`rel`, followed (for directories) by the walk of its children.  An entry
named `template.toml` is skipped — the callback returns nil, so for a
directory the walk still descends into its children.  Otherwise the
joined output path is rendered; a directory is created at the rendered
path and counted, a file is processed by `processFile` and counted, with
its pre-render relative path appended to `CreatedFiles`. -/
def walkEntry (vars : List (String × String)) (out : String) (rel : String) (e : FSEntry)
    (st : WalkState) : WalkState × Option ProcError :=
  if entryName e = TemplateConfigFile then
    match e with
    | .file _ _ => (st, none)
    | .dir _ children => walkChildren vars out rel children st
  else
    match processString vars (joinPath out rel) with
    | .error err => (st, some (.pathError (entryName e) err))
    | .ok outputPath =>
      match e with
      | .dir _ children =>
        let st1 : WalkState :=
          { result := { st.result with DirsCreated := st.result.DirsCreated + 1 },
            effects := st.effects ++ [.mkdirAll outputPath] }
        walkChildren vars out rel children st1
      | .file _ content =>
        match processFile vars content outputPath with
        | .error err => (st, some (.fileError rel err))
        | .ok ops =>
          let st1 : WalkState :=
            { result := { st.result with
                FilesCreated := st.result.FilesCreated + 1,
                CreatedFiles := st.result.CreatedFiles ++ [rel] },
              effects := st.effects ++ ops }
          (st1, none)

/-- Walk the children of a directory in order, stopping at the first
error (`filepath.WalkDir` aborts the whole walk when the callback
returns a non-nil error). -/
def walkChildren (vars : List (String × String)) (out : String) (rel : String)
    (es : List FSEntry) (st : WalkState) : WalkState × Option ProcError :=
  match es with
  | [] => (st, none)
  | e :: rest =>
    match walkEntry vars out (joinRel rel (entryName e)) e st with
    | (st1, some err) => (st1, some err)
    | (st1, none) => walkChildren vars out rel rest st1
end

/-- `Processor.Process`: walk the template tree rooted at `root` (the
directory `templateDir` itself is the first entry `WalkDir` visits, at
relative path `"."`).  On success the accumulated `ProcessResult` is
returned; on error the error alone is returned — never a partial result.
The first component lists the filesystem mutations performed either
way (they are not rolled back on error). -/
def process (vars : List (String × String)) (out : String) (root : FSEntry) :
    List FSOp × Except ProcError ProcessResult :=
  match walkEntry vars out "." root ⟨⟨0, 0, []⟩, []⟩ with
  | (st, some err) => (st.effects, .error err)
  | (st, none) => (st.effects, .ok st.result)

/-- Text with no action opener: no two consecutive opening braces.  Such
text contains no placeholders or control structures. -/
def noOpen : List Char → Bool
  | '{' :: '{' :: _ => false
  | _ :: rest => noOpen rest
  | [] => true

/-- The token list the scanner yields on pure literal text. -/
def textToks : List Char → List Tok
  | [] => []
  | c :: rest => consLit c (textToks rest)

mutual
/-- Specification-side description (for claim C5): the pre-render
template-relative paths of the files the walk creates, in discovery
order, for the entry at relative path `rel` — skipping every entry named
`template.toml` while still descending into such directories. -/
def specCreatedFiles (rel : String) : FSEntry → List String
  | .file nm _ => if nm = TemplateConfigFile then [] else [rel]
  | .dir _ children => specCreatedList rel children

/-- List version of `specCreatedFiles`. -/
def specCreatedList (rel : String) : List FSEntry → List String
  | [] => []
  | e :: rest =>
      specCreatedFiles (joinRel rel (entryName e)) e ++ specCreatedList rel rest
end

mutual
/-- Specification-side description (for claim C2): the number of
directory entries the walk materializes and counts below (and including)
an entry — every visited directory not named `template.toml`, the root
included, and never the parent directories implicitly created for a
file. -/
def specDirCount : FSEntry → Nat
  | .file _ _ => 0
  | .dir nm children =>
      (if nm = TemplateConfigFile then 0 else 1) + specDirCountList children

/-- List version of `specDirCount`. -/
def specDirCountList : List FSEntry → Nat
  | [] => 0
  | e :: rest => specDirCount e + specDirCountList rest
end

/-- Character-list prefix test. -/
def listStarts : List Char → List Char → Bool
  | [], _ => true
  | _ :: _, [] => false
  | a :: as, b :: bs => a == b && listStarts as bs

/-- `p` lies under the directory `root` (it is `root` itself or a path
inside it), lexically. -/
def underDir (root p : String) : Bool :=
  p == root || listStarts (root ++ "/").data p.data

/-- One step of lexical path cleaning: push a segment onto the reversed
segment stack, resolving `.` and `..` the way `filepath.Clean` does for
relative paths. -/
def normStep (acc : List String) (seg : String) : List String :=
  if seg = "" ∨ seg = "." then acc
  else if seg = ".." then
    match acc with
    | [] => [".."]
    | top :: rest => if top = ".." then ".." :: acc else rest
  else seg :: acc

/-- Split a character list at every slash. -/
def splitSlash : List Char → List (List Char)
  | [] => [[]]
  | c :: rest =>
      if c = '/' then [] :: splitSlash rest
      else
        match splitSlash rest with
        | [] => [[c]]
        | s :: ss => (c :: s) :: ss

/-- Lexical path cleaning for relative slash paths, after
`filepath.Clean`: drop empty and `.` segments and resolve `..` against
preceding segments. -/
def normalizePath (p : String) : String :=
  match (((splitSlash p.data).map String.mk).foldl normStep []).reverse with
  | [] => "."
  | s => String.intercalate "/" s

/-- A sane filename segment: no opening brace among its characters (so
no placeholder) and not the special segment `.`. -/
def segOK (nm : String) : Bool :=
  nm.data.all (fun c => !(c == '{')) && !(nm == ".")

mutual
/-- Every entry name strictly inside the tree is placeholder-free (the
root's own name never reaches a rendered path, so it is unconstrained). -/
def namesOKE : FSEntry → Bool
  | .file _ _ => true
  | .dir _ children => namesOKL children

/-- List version of `namesOKE`. -/
def namesOKL : List FSEntry → Bool
  | [] => true
  | e :: rest => segOK (entryName e) && namesOKE e && namesOKL rest
end

/-- Stepping `noOpen` over a cons: the tail is opener-free and the head
cannot start an opener. -/
theorem noOpen_cons {c : Char} {rest : List Char} (h : noOpen (c :: rest) = true) :
    noOpen rest = true ∧ ∀ tail, c = '{' → rest = '{' :: tail → False := by
  constructor
  · rcases rest with _ | ⟨c2, rest2⟩
    · rfl
    · by_cases hc : c = '{' ∧ c2 = '{'
      · rcases hc with ⟨hc1, hc2⟩; subst hc1; subst hc2; simp [noOpen] at h
      · rw [noOpen.eq_2] at h
        · exact h
        · intro tail h1 h2
          cases h2
          exact hc ⟨h1, rfl⟩
  · intro tail h1 h2
    subst h1; subst h2
    simp [noOpen] at h

/-- On opener-free text the scanner yields pure literal tokens. -/
theorem scan_text_noOpen : ∀ cs : List Char, noOpen cs = true →
    scanCore ScanMode.text cs = .ok (textToks cs) := by
  intro cs
  induction cs with
  | nil => intro; rfl
  | cons c rest ih =>
    intro h
    rcases noOpen_cons h with ⟨h1, h2⟩
    rw [scanCore.eq_3 c rest h2, ih h1]
    rfl

/-- Executing pure literal tokens reproduces the text. -/
theorem execToks_textToks (vars : List (String × String)) :
    ∀ cs : List Char, execToks vars (textToks cs) = cs := by
  intro cs
  induction cs with
  | nil => rfl
  | cons c rest ih =>
    show execToks vars (consLit c (textToks rest)) = c :: rest
    rcases hts : textToks rest with _ | ⟨t, ts⟩
    · rw [hts] at ih
      simp [consLit, execToks, execTok] at ih ⊢
      exact ih
    · rcases t with cs' | nm
      · rw [hts] at ih
        simp [consLit, execToks, execTok] at ih ⊢
        exact ih
      · rw [hts] at ih
        simp [consLit, execToks, execTok] at ih ⊢
        rw [ih]

/-- Rendering text that contains no placeholders or control structures
is the identity. -/
theorem processString_noOpen (vars : List (String × String)) (s : String)
    (h : noOpen s.data = true) : processString vars s = .ok s := by
  unfold processString
  rw [scan_text_noOpen s.data h]
  simp [execToks_textToks]

/-- Running the scanner in field-name mode over an identifier followed
by the closing braces yields the single field token. -/
theorem scan_ident_run : ∀ (n acc : List Char), acc ≠ [] ∨ n ≠ [] →
    (∀ c ∈ n, isIdentChar c = true) →
    scanCore (ScanMode.identA acc) (n ++ ['}', '}']) =
      .ok [.field (String.mk (acc.reverse ++ n))] := by
  intro n
  induction n with
  | nil =>
    intro acc hne _
    have hacc : acc.isEmpty = false := by
      rcases hne with h | h
      · rcases acc with _ | ⟨a, as⟩
        · exact absurd rfl h
        · rfl
      · exact absurd rfl h
    show scanCore (ScanMode.identA acc) ('}' :: ['}']) = _
    rw [scanCore.eq_7]
    have h1 : isIdentChar '}' = false := by decide
    rw [h1, hacc]
    simp [scanCore]
    rfl
  | cons c n' ih =>
    intro acc _ hid
    have hc : isIdentChar c = true := hid c (List.mem_cons_self c n')
    show scanCore (ScanMode.identA acc) (c :: (n' ++ ['}', '}'])) = _
    rw [scanCore.eq_7, hc]
    simp only [if_true]
    rw [ih (c :: acc) (Or.inl (by simp)) (fun x hx => hid x (List.mem_cons_of_mem c hx))]
    simp

/-- Rendering a lone field action whose (well-formed) variable name is
absent from the bindings succeeds and substitutes the literal text
`<no value>` — it does not fail. -/
theorem missing_key_renders (vars : List (String × String)) (n : String)
    (hne : n.data ≠ []) (hid : ∀ c ∈ n.data, isIdentChar c = true)
    (habsent : lookupVar vars n = none) :
    processString vars ("\x7b\x7b." ++ n ++ "\x7d\x7d") = .ok "<no value>" := by
  unfold processString
  have hdata : ("\x7b\x7b." ++ n ++ "\x7d\x7d").data =
      '{' :: '{' :: '.' :: (n.data ++ ['}', '}']) := by
    show (("\x7b\x7b." ++ n) ++ "\x7d\x7d").data = _
    rw [String.data_append, String.data_append]
    rfl
  rw [hdata]
  have hstep : scanCore ScanMode.text ('{' :: '{' :: '.' :: (n.data ++ ['}', '}'])) =
      scanCore (ScanMode.identA []) (n.data ++ ['}', '}']) := rfl
  rw [hstep, scan_ident_run n.data [] (Or.inr hne) hid]
  show Except.ok (String.mk (execToks vars [Tok.field (String.mk ([].reverse ++ n.data))])) = _
  have hn : String.mk ([].reverse ++ n.data) = n := by
    simp
  rw [hn]
  simp [execToks, execTok, habsent]

/-- Unfolding: a file named `template.toml` is skipped outright. -/
theorem walkEntry_file_skip (vars : List (String × String)) (out rel content : String)
    (st : WalkState) :
    walkEntry vars out rel (.file TemplateConfigFile content) st = (st, none) := by
  rw [walkEntry]
  simp [entryName]

/-- Unfolding: a directory named `template.toml` is itself skipped — not
rendered, created or counted — but the walk still descends into its
children. -/
theorem walkEntry_dir_skip (vars : List (String × String)) (out rel : String)
    (children : List FSEntry) (st : WalkState) :
    walkEntry vars out rel (.dir TemplateConfigFile children) st =
      walkChildren vars out rel children st := by
  rw [walkEntry]
  simp [entryName]

/-- Unfolding: a failing path render aborts with the wrapped error and
no new state. -/
theorem walkEntry_path_err (vars : List (String × String)) (out rel : String) (e : FSEntry)
    (st : WalkState) (err : TemplateError) (h : ¬ entryName e = TemplateConfigFile)
    (hp : processString vars (joinPath out rel) = .error err) :
    walkEntry vars out rel e st = (st, some (.pathError (entryName e) err)) := by
  rcases e with ⟨nm, content⟩ | ⟨nm, children⟩
  · rw [walkEntry]
    have hn : entryName (.file nm content) = nm := rfl
    rw [hn] at h ⊢
    rw [if_neg h, hp]
  · rw [walkEntry]
    have hn : entryName (.dir nm children) = nm := rfl
    rw [hn] at h ⊢
    rw [if_neg h, hp]

/-- Unfolding: a directory entry (not the descriptor) whose output path
renders to `p` is created at `p`, counted, and its children walked. -/
theorem walkEntry_dir_ok (vars : List (String × String)) (out rel nm : String)
    (children : List FSEntry) (st : WalkState) (p : String)
    (h : ¬ nm = TemplateConfigFile) (hp : processString vars (joinPath out rel) = .ok p) :
    walkEntry vars out rel (.dir nm children) st =
      walkChildren vars out rel children
        ⟨{ st.result with DirsCreated := st.result.DirsCreated + 1 },
         st.effects ++ [.mkdirAll p]⟩ := by
  rw [walkEntry]
  have hn : entryName (.dir nm children) = nm := rfl
  rw [hn, if_neg h, hp]

/-- Unfolding: a file entry whose content fails to render aborts with
the error wrapped with the file's relative path, and no new state. -/
theorem walkEntry_file_err (vars : List (String × String)) (out rel nm content : String)
    (st : WalkState) (p : String) (err : TemplateError)
    (h : ¬ nm = TemplateConfigFile) (hp : processString vars (joinPath out rel) = .ok p)
    (hf : processFile vars content p = .error err) :
    walkEntry vars out rel (.file nm content) st = (st, some (.fileError rel err)) := by
  rw [walkEntry]
  have hn : entryName (.file nm content) = nm := rfl
  rw [hn, if_neg h, hp]
  simp [hf]

/-- Unfolding: a successfully processed file entry appends its parent
mkdir and its write, bumps `FilesCreated` and records the pre-render
relative path. -/
theorem walkEntry_file_ok (vars : List (String × String)) (out rel nm content : String)
    (st : WalkState) (p : String) (ops : List FSOp)
    (h : ¬ nm = TemplateConfigFile) (hp : processString vars (joinPath out rel) = .ok p)
    (hf : processFile vars content p = .ok ops) :
    walkEntry vars out rel (.file nm content) st =
      (⟨{ st.result with
            FilesCreated := st.result.FilesCreated + 1,
            CreatedFiles := st.result.CreatedFiles ++ [rel] },
        st.effects ++ ops⟩, none) := by
  rw [walkEntry]
  have hn : entryName (.file nm content) = nm := rfl
  rw [hn, if_neg h, hp]
  simp [hf]

/-- Unfolding: walking an empty child list does nothing. -/
theorem walkChildren_nil (vars : List (String × String)) (out rel : String) (st : WalkState) :
    walkChildren vars out rel [] st = (st, none) := by
  rw [walkChildren]

/-- Unfolding: a child that fails stops the walk of its siblings. -/
theorem walkChildren_cons_err (vars : List (String × String)) (out rel : String)
    (e : FSEntry) (rest : List FSEntry) (st st1 : WalkState) (err : ProcError)
    (h : walkEntry vars out (joinRel rel (entryName e)) e st = (st1, some err)) :
    walkChildren vars out rel (e :: rest) st = (st1, some err) := by
  rw [walkChildren, h]

/-- Unfolding: a child that succeeds passes its state to its siblings. -/
theorem walkChildren_cons_ok (vars : List (String × String)) (out rel : String)
    (e : FSEntry) (rest : List FSEntry) (st st1 : WalkState)
    (h : walkEntry vars out (joinRel rel (entryName e)) e st = (st1, none)) :
    walkChildren vars out rel (e :: rest) st = walkChildren vars out rel rest st1 := by
  rw [walkChildren, h]

/-- Characterization of a successful walk's accumulated result: the
created-file list grows by exactly the pre-render relative paths in
discovery order, the directory count by the number of visited non-descriptor
directory entries, and the file count by the number of created files. -/
theorem walk_result_spec (vars : List (String × String)) (out : String) :
    (∀ (rel : String) (e : FSEntry) (st st1 : WalkState),
        walkEntry vars out rel e st = (st1, none) →
          st1.result.CreatedFiles = st.result.CreatedFiles ++ specCreatedFiles rel e ∧
          st1.result.DirsCreated = st.result.DirsCreated + specDirCount e ∧
          st1.result.FilesCreated = st.result.FilesCreated + (specCreatedFiles rel e).length) ∧
    (∀ (rel : String) (es : List FSEntry) (st st1 : WalkState),
        walkChildren vars out rel es st = (st1, none) →
          st1.result.CreatedFiles = st.result.CreatedFiles ++ specCreatedList rel es ∧
          st1.result.DirsCreated = st.result.DirsCreated + specDirCountList es ∧
          st1.result.FilesCreated = st.result.FilesCreated + (specCreatedList rel es).length) := by
  refine walkEntry.mutual_induct vars out _ _ ?_ ?_ ?_ ?_ ?_ ?_ ?_ ?_ ?_
  · intro rel st nm content hskip st1 hw
    simp only [entryName] at hskip
    subst hskip
    rw [walkEntry_file_skip] at hw
    cases hw
    simp [specCreatedFiles, specDirCount]
  · intro rel st nm children hskip ih st1 hw
    simp only [entryName] at hskip
    subst hskip
    rw [walkEntry_dir_skip] at hw
    rcases ih st1 hw with ⟨h1, h2, h3⟩
    refine ⟨?_, ?_, ?_⟩
    · rw [h1]; simp [specCreatedFiles]
    · rw [h2]; simp [specDirCount]
    · rw [h3]; simp [specCreatedFiles]
  · intro t rel st hne err hperr st1 hw
    rw [walkEntry_path_err vars out rel t st err hne hperr] at hw
    simp at hw
  · intro rel st processed hpok nm children stlet hne ih st1 hw
    simp only [entryName] at hne
    rw [walkEntry_dir_ok vars out rel nm children st processed hne hpok] at hw
    rcases ih st1 hw with ⟨h1, h2, h3⟩
    refine ⟨?_, ?_, ?_⟩
    · rw [h1]; simp [specCreatedFiles]
    · rw [h2]; simp [specDirCount, if_neg hne]; omega
    · rw [h3]; simp [specCreatedFiles]
  · intro rel st processed hpok nm content err hferr hne st1 hw
    simp only [entryName] at hne
    rw [walkEntry_file_err vars out rel nm content st processed err hne hpok hferr] at hw
    simp at hw
  · intro rel st processed hpok nm content ops hfok hne st1 hw
    simp only [entryName] at hne
    rw [walkEntry_file_ok vars out rel nm content st processed ops hne hpok hfok] at hw
    cases hw
    simp [specCreatedFiles, specDirCount, if_neg hne]
  · intro rel st st1 hw
    rw [walkChildren_nil] at hw
    cases hw
    simp [specCreatedList, specDirCountList]
  · intro rel st e rest st1 err hwerr ih st2 hw
    rw [walkChildren_cons_err vars out rel e rest st st1 err hwerr] at hw
    simp at hw
  · intro rel st e rest st1 hwok ih1 ih2 st2 hw
    rw [walkChildren_cons_ok vars out rel e rest st st1 hwok] at hw
    rcases ih1 st1 hwok with ⟨a1, a2, a3⟩
    rcases ih2 st2 hw with ⟨b1, b2, b3⟩
    refine ⟨?_, ?_, ?_⟩
    · rw [b1, a1]; simp [specCreatedList, List.append_assoc]
    · rw [b2, a2]; simp [specDirCountList]; omega
    · rw [b3, a3]; simp [specCreatedList]; omega

/-- The walk only appends to the effect list: whatever the outcome, the
mutations already performed are left in place. -/
theorem walk_effects_extend (vars : List (String × String)) (out : String) :
    (∀ (rel : String) (e : FSEntry) (st : WalkState),
        ∃ tl, ((walkEntry vars out rel e st).1).effects = st.effects ++ tl) ∧
    (∀ (rel : String) (es : List FSEntry) (st : WalkState),
        ∃ tl, ((walkChildren vars out rel es st).1).effects = st.effects ++ tl) := by
  refine walkEntry.mutual_induct vars out _ _ ?_ ?_ ?_ ?_ ?_ ?_ ?_ ?_ ?_
  · intro rel st nm content hskip
    simp only [entryName] at hskip
    subst hskip
    rw [walkEntry_file_skip]
    exact ⟨[], by simp⟩
  · intro rel st nm children hskip ih
    simp only [entryName] at hskip
    subst hskip
    rw [walkEntry_dir_skip]
    exact ih
  · intro t rel st hne err hperr
    rw [walkEntry_path_err vars out rel t st err hne hperr]
    exact ⟨[], by simp⟩
  · intro rel st processed hpok nm children stlet hne ih
    simp only [entryName] at hne
    rw [walkEntry_dir_ok vars out rel nm children st processed hne hpok]
    rcases ih with ⟨tl, htl⟩
    exact ⟨.mkdirAll processed :: tl, by rw [htl]; simp⟩
  · intro rel st processed hpok nm content err hferr hne
    simp only [entryName] at hne
    rw [walkEntry_file_err vars out rel nm content st processed err hne hpok hferr]
    exact ⟨[], by simp⟩
  · intro rel st processed hpok nm content ops hfok hne
    simp only [entryName] at hne
    rw [walkEntry_file_ok vars out rel nm content st processed ops hne hpok hfok]
    exact ⟨ops, rfl⟩
  · intro rel st
    rw [walkChildren_nil]
    exact ⟨[], by simp⟩
  · intro rel st e rest st1 err hwerr ih
    rw [walkChildren_cons_err vars out rel e rest st st1 err hwerr]
    rcases ih with ⟨tl, htl⟩
    rw [hwerr] at htl
    exact ⟨tl, htl⟩
  · intro rel st e rest st1 hwok ih1 ih2
    rw [walkChildren_cons_ok vars out rel e rest st st1 hwok]
    rcases ih1 with ⟨tl1, htl1⟩
    rcases ih2 with ⟨tl2, htl2⟩
    rw [hwok] at htl1
    exact ⟨tl1 ++ tl2, by rw [htl2, htl1]; simp⟩

/-- A list is a prefix of itself followed by anything. -/
theorem listStarts_self_append : ∀ a b : List Char, listStarts a (a ++ b) = true := by
  intro a b
  induction a with
  | nil => rfl
  | cons c rest ih => simp [listStarts, ih]

/-- A directory lies under itself. -/
theorem underDir_self (out : String) : underDir out out = true := by
  simp [underDir]

/-- The joined output path of any relative path lies under the output
root. -/
theorem underDir_joinPath (out rel : String) : underDir out (joinPath out rel) = true := by
  unfold joinPath
  by_cases h : rel = "."
  · rw [if_pos h]; exact underDir_self out
  · rw [if_neg h]
    unfold underDir
    have : (out ++ "/" ++ rel).data = (out ++ "/").data ++ rel.data := by
      rw [String.data_append]
    rw [this, listStarts_self_append]
    simp

/-- Dropping the last segment of a path that contains a slash keeps, at
least, everything before some slash. -/
theorem parentDirAux_mid : ∀ (s pre : List Char),
    ∃ r, parentDirAux (s ++ '/' :: pre) = some r ∧ (r = pre ∨ ∃ q, r = q ++ '/' :: pre) := by
  intro s
  induction s with
  | nil =>
    intro pre
    exact ⟨pre, rfl, Or.inl rfl⟩
  | cons c s' ih =>
    intro pre
    by_cases hc : c = '/'
    · subst hc
      exact ⟨s' ++ '/' :: pre, rfl, Or.inr ⟨s', rfl⟩⟩
    · rcases ih pre with ⟨r, hr, hcase⟩
      refine ⟨r, ?_, hcase⟩
      show parentDirAux (c :: (s' ++ '/' :: pre)) = some r
      rw [parentDirAux.eq_3]
      · exact hr
      · exact hc

/-- The parent directory of a path strictly inside `out` still lies
under `out`. -/
theorem underDir_parentDir (out rel : String) (h : ¬ rel = ".") :
    underDir out (parentDir (joinPath out rel)) = true := by
  unfold joinPath
  rw [if_neg h]
  unfold parentDir
  have hdata : (out ++ "/" ++ rel).data = out.data ++ '/' :: rel.data := by
    rw [String.data_append, String.data_append]
    simp
  rw [hdata]
  have hrev : (out.data ++ '/' :: rel.data).reverse = rel.data.reverse ++ '/' :: out.data.reverse := by
    simp
  rw [hrev]
  rcases parentDirAux_mid rel.data.reverse out.data.reverse with ⟨r, hr, hcase⟩
  rw [hr]
  show underDir out (String.mk r.reverse) = true
  rcases hcase with hpre | ⟨q, hq⟩
  · subst hpre
    simp only [List.reverse_reverse]
    have : String.mk out.data = out := rfl
    rw [this]
    exact underDir_self out
  · subst hq
    have hqrev : (q ++ '/' :: out.data.reverse).reverse = (out.data ++ ['/']) ++ q.reverse := by
      simp
    rw [hqrev]
    unfold underDir
    have h2 : (out ++ "/").data = out.data ++ ['/'] := by
      rw [String.data_append]
    have h3 : (String.mk ((out.data ++ ['/']) ++ q.reverse)).data = (out.data ++ ['/']) ++ q.reverse := rfl
    rw [h3, h2, listStarts_self_append]
    simp

/-- Text with no opening brace has no action opener. -/
theorem noOpen_of_no_brace : ∀ cs : List Char, cs.all (fun c => !(c == '{')) = true →
    noOpen cs = true := by
  intro cs
  induction cs with
  | nil => intro; rfl
  | cons c rest ih =>
    intro h
    simp only [List.all_cons, Bool.and_eq_true] at h
    rw [noOpen.eq_2]
    · exact ih h.2
    · intro tail h1 h2
      rw [h1] at h
      simp at h

/-- Appending a slash and brace-free text to opener-free text keeps it
opener-free. -/
theorem noOpen_append_slash : ∀ a b : List Char, noOpen a = true →
    b.all (fun c => !(c == '{')) = true → noOpen (a ++ '/' :: b) = true := by
  intro a
  induction a with
  | nil =>
    intro b _ hb
    show noOpen ('/' :: b) = true
    rw [noOpen.eq_2]
    · exact noOpen_of_no_brace b hb
    · intro tail h1
      cases h1
  | cons c rest ih =>
    intro b ha hb
    rcases noOpen_cons ha with ⟨h1, h2⟩
    show noOpen (c :: (rest ++ '/' :: b)) = true
    rw [noOpen.eq_2]
    · exact ih b h1 hb
    · intro tail hcb heq
      rcases rest with _ | ⟨c2, rest2⟩
      · simp at heq
      · injection heq with hh1 hh2
        exact h2 rest2 hcb (by rw [hh1])

/-- A joined output path has no action opener when the output root and
the relative path are opener-free. -/
theorem noOpen_joinPath (out rel : String) (hout : noOpen out.data = true)
    (hrel : rel.data.all (fun c => !(c == '{')) = true) :
    noOpen (joinPath out rel).data = true := by
  unfold joinPath
  by_cases h : rel = "."
  · rw [if_pos h]; exact hout
  · rw [if_neg h]
    have hdata : (out ++ "/" ++ rel).data = out.data ++ '/' :: rel.data := by
      rw [String.data_append, String.data_append]
      simp
    rw [hdata]
    exact noOpen_append_slash out.data rel.data hout hrel

/-- Brace-freeness is preserved by extending a relative path with a
brace-free segment. -/
theorem joinRel_all (rel nm : String)
    (hrel : rel.data.all (fun c => !(c == '{')) = true)
    (hnm : nm.data.all (fun c => !(c == '{')) = true) :
    (joinRel rel nm).data.all (fun c => !(c == '{')) = true := by
  unfold joinRel
  by_cases h : rel = "."
  · rw [if_pos h]; exact hnm
  · rw [if_neg h]
    have hdata : (rel ++ "/" ++ nm).data = rel.data ++ '/' :: nm.data := by
      rw [String.data_append, String.data_append]
      simp
    rw [hdata]
    simp only [List.all_append, List.all_cons, Bool.and_eq_true]
    exact ⟨hrel, by decide, hnm⟩

/-- Extending a relative path with a non-dot segment cannot yield the
root's relative path. -/
theorem joinRel_ne_dot (rel nm : String) (hnm : ¬ nm = ".") :
    ¬ joinRel rel nm = "." := by
  unfold joinRel
  by_cases h : rel = "."
  · rw [if_pos h]; exact hnm
  · rw [if_neg h]
    intro heq
    have hd := congrArg String.data heq
    rw [String.data_append, String.data_append] at hd
    have : rel.data ++ ('/' :: nm.data) = ['.'] := by
      simpa using hd
    rcases hr : rel.data with _ | ⟨c, cs⟩
    · rw [hr] at this
      simp at this
    · rw [hr] at this
      rcases cs with _ | ⟨c2, cs2⟩ <;> simp at this

/-- Every mutation the walk performs targets a path under the output
root, provided the output root and all entry names below the root are
placeholder-free (rendered paths then coincide with the joined paths). -/
theorem walk_effects_under (vars : List (String × String)) (out : String)
    (hout : noOpen out.data = true) :
    (∀ (rel : String) (e : FSEntry) (st : WalkState),
        ¬ rel = "." → rel.data.all (fun c => !(c == '{')) = true → namesOKE e = true →
        (∀ op ∈ st.effects, underDir out (opPath op) = true) →
        ∀ op ∈ ((walkEntry vars out rel e st).1).effects, underDir out (opPath op) = true) ∧
    (∀ (rel : String) (es : List FSEntry) (st : WalkState),
        rel.data.all (fun c => !(c == '{')) = true → namesOKL es = true →
        (∀ op ∈ st.effects, underDir out (opPath op) = true) →
        ∀ op ∈ ((walkChildren vars out rel es st).1).effects, underDir out (opPath op) = true) := by
  refine walkEntry.mutual_induct vars out _ _ ?_ ?_ ?_ ?_ ?_ ?_ ?_ ?_ ?_
  · intro rel st nm content hskip hdot hrel hnames hst
    simp only [entryName] at hskip
    subst hskip
    rw [walkEntry_file_skip]
    exact hst
  · intro rel st nm children hskip ih hdot hrel hnames hst
    simp only [entryName] at hskip
    subst hskip
    rw [walkEntry_dir_skip]
    exact ih hrel hnames hst
  · intro t rel st hne err hperr hdot hrel hnames hst
    rw [walkEntry_path_err vars out rel t st err hne hperr]
    exact hst
  · intro rel st processed hpok nm children stlet hne ih hdot hrel hnames hst
    simp only [entryName] at hne
    rw [walkEntry_dir_ok vars out rel nm children st processed hne hpok]
    have hid := processString_noOpen vars (joinPath out rel) (noOpen_joinPath out rel hout hrel)
    rw [hid] at hpok
    have hproc : processed = joinPath out rel := by
      cases hpok
      rfl
    subst hproc
    refine ih hrel ?_ ?_
    · simpa [namesOKE] using hnames
    · intro op hop
      simp only [List.mem_append, List.mem_singleton] at hop
      rcases hop with hmem | hnew
      · exact hst op hmem
      · subst hnew
        exact underDir_joinPath out rel
  · intro rel st processed hpok nm content err hferr hne hdot hrel hnames hst
    simp only [entryName] at hne
    rw [walkEntry_file_err vars out rel nm content st processed err hne hpok hferr]
    exact hst
  · intro rel st processed hpok nm content ops hfok hne hdot hrel hnames hst
    simp only [entryName] at hne
    rw [walkEntry_file_ok vars out rel nm content st processed ops hne hpok hfok]
    have hid := processString_noOpen vars (joinPath out rel) (noOpen_joinPath out rel hout hrel)
    rw [hid] at hpok
    have hproc : processed = joinPath out rel := by
      cases hpok
      rfl
    subst hproc
    have hops : ∃ rendered, ops = [.mkdirAll (parentDir (joinPath out rel)),
        .writeFile (joinPath out rel) rendered] := by
      unfold processFile at hfok
      rcases hc : processString vars content with e | rendered
      · rw [hc] at hfok
        cases hfok
      · rw [hc] at hfok
        cases hfok
        exact ⟨rendered, rfl⟩
    rcases hops with ⟨rendered, hops⟩
    subst hops
    intro op hop
    simp only [List.mem_append] at hop
    rcases hop with hmem | hnew
    · exact hst op hmem
    · simp only [List.mem_cons, List.not_mem_nil, or_false] at hnew
      rcases hnew with h1 | h2
      · subst h1
        exact underDir_parentDir out rel hdot
      · subst h2
        exact underDir_joinPath out rel
  · intro rel st hrel hnames hst
    rw [walkChildren_nil]
    exact hst
  · intro rel st e rest st1 err hwerr ih hrel hnames hst
    rw [walkChildren_cons_err vars out rel e rest st st1 err hwerr]
    have hseg : segOK (entryName e) = true ∧ namesOKE e = true := by
      simp only [namesOKL, Bool.and_eq_true] at hnames
      exact ⟨hnames.1.1, hnames.1.2⟩
    have hsegall : (entryName e).data.all (fun c => !(c == '{')) = true ∧
        ¬ entryName e = "." := by
      have := hseg.1
      simp only [segOK, Bool.and_eq_true, Bool.not_eq_true'] at this
      refine ⟨this.1, ?_⟩
      intro hh
      rw [hh] at this
      simp at this
    have := ih (joinRel_ne_dot rel (entryName e) hsegall.2)
      (joinRel_all rel (entryName e) hrel hsegall.1) hseg.2 hst
    rw [hwerr] at this
    exact this
  · intro rel st e rest st1 hwok ih1 ih2 hrel hnames hst
    rw [walkChildren_cons_ok vars out rel e rest st st1 hwok]
    have hseg : segOK (entryName e) = true ∧ namesOKE e = true ∧ namesOKL rest = true := by
      simp only [namesOKL, Bool.and_eq_true] at hnames
      exact ⟨hnames.1.1, hnames.1.2, hnames.2⟩
    have hsegall : (entryName e).data.all (fun c => !(c == '{')) = true ∧
        ¬ entryName e = "." := by
      have := hseg.1
      simp only [segOK, Bool.and_eq_true, Bool.not_eq_true'] at this
      refine ⟨this.1, ?_⟩
      intro hh
      rw [hh] at this
      simp at this
    have hst1 := ih1 (joinRel_ne_dot rel (entryName e) hsegall.2)
      (joinRel_all rel (entryName e) hrel hsegall.1) hseg.2.1 hst
    rw [hwok] at hst1
    exact ih2 hrel hseg.2.2 hst1

/-- Appending the path separator at the `String` level. -/
theorem data_append_slash (s : String) : (s ++ "/").data = s.data ++ ['/'] := by
  rw [String.data_append]

/-- Two prefixes of a common list are comparable. -/
theorem starts_total : ∀ (p x y : List Char), listStarts x p = true → listStarts y p = true →
    listStarts x y = true ∨ listStarts y x = true := by
  intro p
  induction p with
  | nil =>
    intro x y hx hy
    rcases x with _ | ⟨a, x'⟩
    · exact Or.inl rfl
    · simp [listStarts] at hx
  | cons c p' ih =>
    intro x y hx hy
    rcases x with _ | ⟨a, x'⟩
    · exact Or.inl rfl
    · rcases y with _ | ⟨b, y'⟩
      · exact Or.inr rfl
      · simp only [listStarts, Bool.and_eq_true, beq_iff_eq] at hx hy
        rcases hx with ⟨ha, hx'⟩
        rcases hy with ⟨hb, hy'⟩
        subst ha; subst hb
        rcases ih x' y' hx' hy' with h | h
        · exact Or.inl (by simp [listStarts, h])
        · exact Or.inr (by simp [listStarts, h])

/-- If one slash-terminated path is a prefix of another, the first names
the same directory or a strict ancestor. -/
theorem starts_slash_cases : ∀ a b : List Char,
    listStarts (a ++ ['/']) (b ++ ['/']) = true →
    a = b ∨ listStarts (a ++ ['/']) b = true := by
  intro a
  induction a with
  | nil =>
    intro b h
    rcases b with _ | ⟨c, b'⟩
    · exact Or.inl rfl
    · simp only [List.nil_append, listStarts, Bool.and_eq_true, beq_iff_eq] at h
      right
      simp [listStarts]
      exact h.1
  | cons x a' ih =>
    intro b h
    rcases b with _ | ⟨y, b'⟩
    · exfalso
      simp only [List.cons_append, List.nil_append, listStarts, Bool.and_eq_true] at h
      rcases a' with _ | ⟨z, a''⟩ <;> simp [listStarts] at h
    · simp only [List.cons_append, listStarts, Bool.and_eq_true, beq_iff_eq] at h
      rcases h with ⟨hxy, h'⟩
      subst hxy
      rcases ih b' h' with heq | hst
      · exact Or.inl (by rw [heq])
      · right
        simp [listStarts, hst]

/-- A path under `out` cannot also lie under a directory `tDir` that is
lexically disjoint from `out` (neither contains the other). -/
theorem not_under_of_disjoint (out tDir p : String)
    (h1 : underDir out p = true) (h2 : underDir out tDir = false)
    (h3 : underDir tDir out = false) (h4 : ¬ tDir = out) :
    underDir tDir p = false := by
  unfold underDir at h1 h2 h3 ⊢
  simp only [Bool.or_eq_true, beq_iff_eq] at h1
  simp only [Bool.or_eq_false_iff, beq_eq_false_iff_ne, ne_eq] at h2 h3 ⊢
  constructor
  · intro hp
    subst hp
    rcases h1 with hp | hs
    · exact h4 (hp ▸ rfl)
    · exact absurd hs (by simpa using h2.2)
  · rcases h1 with hp | hs
    · subst hp
      simpa using h3.2
    · cases hb : listStarts (tDir ++ "/").data p.data
      · rfl
      · exfalso
        rw [data_append_slash] at hs hb
        rcases starts_total p.data (out.data ++ ['/']) (tDir.data ++ ['/']) hs hb with h | h
        · rcases starts_slash_cases out.data tDir.data h with heq | hst
          · exact h4 (String.ext heq.symm)
          · rw [← data_append_slash] at hst
            exact absurd hst (by simpa using h2.2)
        · rcases starts_slash_cases tDir.data out.data h with heq | hst
          · exact h4 (String.ext heq)
          · rw [← data_append_slash] at hst
            exact absurd hst (by simpa using h3.2)

/-- Auxiliary: the mutation list `process` reports is exactly what the
walk accumulated, on success and on error alike. -/
theorem process_fst (vars : List (String × String)) (out : String) (root : FSEntry) :
    (process vars out root).1 = ((walkEntry vars out "." root ⟨⟨0, 0, []⟩, []⟩).1).effects := by
  unfold process
  rcases h : walkEntry vars out "." root ⟨⟨0, 0, []⟩, []⟩ with ⟨st, err⟩
  rcases err with _ | e <;> simp

/-- Claim C1, counterexample: rendering `Hello` followed by a field
action for the variable `name` against the empty binding map parses to a
placeholder reference to the absent variable `name`, yet
`processString` succeeds with the placeholder substitution
`Hello <no value>!` instead of failing with a `TemplateExecutionError`,
contradicting the claim as stated. -/
theorem claim1_counterexample :
    scanCore ScanMode.text "Hello \x7b\x7b.name\x7d\x7d!".data =
      .ok [.lit "Hello ".data, .field "name", .lit "!".data] ∧
    lookupVar [] "name" = none ∧
    processString [] "Hello \x7b\x7b.name\x7d\x7d!" = Except.ok "Hello <no value>!" := by
  refine ⟨by decide, rfl, by decide⟩

/-- Claim C1, amended: for every binding map and every well-formed field
action referencing a variable name absent from the binding map,
rendering succeeds and substitutes the literal text `<no value>` for the
missing value (Go `text/template` default missing-key behavior); it does
not fail with a `TemplateExecutionError`. -/
theorem claim1_theorem (vars : List (String × String)) (n : String)
    (hne : n.data ≠ []) (hid : ∀ c ∈ n.data, isIdentChar c = true)
    (habsent : lookupVar vars n = none) :
    processString vars ("\x7b\x7b." ++ n ++ "\x7d\x7d") = Except.ok "<no value>" :=
  missing_key_renders vars n hne hid habsent

/-- Claim C1, witness: the amended theorem at the binding map
`other ↦ v` and the absent variable `name`. -/
theorem claim1_witness :
    processString [("other", "v")] ("\x7b\x7b." ++ "name" ++ "\x7d\x7d") =
      Except.ok "<no value>" :=
  claim1_theorem [("other", "v")] "name" (by decide) (by decide) (by decide)

/-- Claim C2, counterexample: for Scenario A (a template root holding
only `README.md` with a greeting placeholder and the binding
`name ↦ World`) the walk succeeds with `FilesCreated = 1` but
`DirsCreated = 1`, not the claimed `0`: `filepath.WalkDir` visits the
template root directory itself as its first entry, and the processor
counts it. -/
theorem claim2_counterexample :
    (process [("name", "World")] "out"
        (.dir "tmpl" [.file "README.md" "Hello \x7b\x7b.name\x7d\x7d!"])).2 =
      Except.ok ⟨1, 1, ["README.md"]⟩ ∧
    Except.map ProcessResult.DirsCreated
      (process [("name", "World")] "out"
        (.dir "tmpl" [.file "README.md" "Hello \x7b\x7b.name\x7d\x7d!"])).2 ≠
      Except.ok 0 := by
  refine ⟨by decide, by decide⟩

/-- Claim C2, amended: Scenario A succeeds with the output `README.md`
containing `Hello World!`, `FilesCreated = 1` and `DirsCreated = 1` (the
root directory entry itself is materialized and counted); in general
`DirsCreated` counts exactly the visited non-descriptor directory
entries — the root included — and never the parent directories
implicitly created for a file. -/
theorem claim2_theorem :
    process [("name", "World")] "out"
        (.dir "tmpl" [.file "README.md" "Hello \x7b\x7b.name\x7d\x7d!"]) =
      ([.mkdirAll "out", .mkdirAll "out", .writeFile "out/README.md" "Hello World!"],
       Except.ok ⟨1, 1, ["README.md"]⟩) ∧
    (∀ (vars : List (String × String)) (out rel : String) (e : FSEntry) (st st1 : WalkState),
        walkEntry vars out rel e st = (st1, none) →
        st1.result.DirsCreated = st.result.DirsCreated + specDirCount e) := by
  refine ⟨by decide, ?_⟩
  intro vars out rel e st st1 h
  exact ((walk_result_spec vars out).1 rel e st st1 h).2.1

/-- Claim C2, witness: the general directory count of the amended claim,
instantiated at Scenario A — one directory (the root), none for the
implicitly created parent of `README.md`. -/
theorem claim2_witness :
    (⟨⟨1, 1, ["README.md"]⟩,
      [.mkdirAll "out", .mkdirAll "out", .writeFile "out/README.md" "Hello World!"]⟩ :
        WalkState).result.DirsCreated =
      (⟨⟨0, 0, []⟩, []⟩ : WalkState).result.DirsCreated +
        specDirCount (.dir "tmpl" [.file "README.md" "Hello \x7b\x7b.name\x7d\x7d!"]) :=
  claim2_theorem.2 [("name", "World")] "out" "."
    (.dir "tmpl" [.file "README.md" "Hello \x7b\x7b.name\x7d\x7d!"])
    ⟨⟨0, 0, []⟩, []⟩ _ (by decide)

/-- Claim C3: the claim is right and the code is wrong.  A variable
declared with no type passes `validateVariable` as decoded (empty type
string), but `LoadTemplate` normalizes the empty type to `"any"` before
returning, and `"any"` is not among the four types `validateVariable`
accepts — so loading a descriptor with an untyped variable and then
validating it fails with an invalid-type error instead of succeeding. -/
theorem claim3_theorem :
    validateVariable "x" ⟨none, "", ""⟩ = .ok () ∧
    Template.validate (loadTemplateNormalize "templates/mytmpl"
        ⟨⟨"mytmpl", "", ""⟩, [("x", ⟨none, "", ""⟩)], ⟨[], [], []⟩, ""⟩) =
      .error "variable x: invalid type any" := by
  refine ⟨by decide, by decide⟩

/-- Claim C4: the first error anywhere in the walk aborts it: the
remaining siblings (and their descendants) are never processed — the
outcome does not depend on them — and `process` returns that error with
no `ProcessResult`, leaving the mutations already performed in place. -/
theorem claim4_theorem (vars : List (String × String)) (out : String) :
    (∀ (rel : String) (e : FSEntry) (rest : List FSEntry) (st st1 : WalkState) (err : ProcError),
        walkEntry vars out (joinRel rel (entryName e)) e st = (st1, some err) →
        walkChildren vars out rel (e :: rest) st = (st1, some err)) ∧
    (∀ (root : FSEntry) (st1 : WalkState) (err : ProcError),
        walkEntry vars out "." root ⟨⟨0, 0, []⟩, []⟩ = (st1, some err) →
        process vars out root = (st1.effects, Except.error err)) := by
  constructor
  · intro rel e rest st st1 err h
    exact walkChildren_cons_err vars out rel e rest st st1 err h
  · intro root st1 err h
    unfold process
    rw [h]

/-- Claim C4, witness: a four-file template whose third file has
malformed content — the first two files are written, the walk stops with
the wrapped error before the fourth file, and no result is returned. -/
theorem claim4_witness :
    process [] "out"
        (.dir "tmpl" [.file "a.txt" "A", .file "b.txt" "B",
          .file "c.txt" "\x7b\x7b", .file "d.txt" "D"]) =
      ([.mkdirAll "out", .mkdirAll "out", .writeFile "out/a.txt" "A",
        .mkdirAll "out", .writeFile "out/b.txt" "B"],
       Except.error (.fileError "c.txt" (.syntaxError "unsupported action"))) :=
  (claim4_theorem [] "out").2
    (.dir "tmpl" [.file "a.txt" "A", .file "b.txt" "B",
      .file "c.txt" "\x7b\x7b", .file "d.txt" "D"])
    ⟨⟨2, 1, ["a.txt", "b.txt"]⟩,
     [.mkdirAll "out", .mkdirAll "out", .writeFile "out/a.txt" "A",
      .mkdirAll "out", .writeFile "out/b.txt" "B"]⟩
    (.fileError "c.txt" (.syntaxError "unsupported action")) (by decide)

/-- Claim C5: on success the created-file list grows by exactly the
pre-render template-relative paths of the processed files, in discovery
order; in Scenario B it is the literal `placeholder-dir/main.txt` path,
not the rendered `acme/main.txt`. -/
theorem claim5_theorem (vars : List (String × String)) (out : String) :
    (∀ (rel : String) (e : FSEntry) (st st1 : WalkState),
        walkEntry vars out rel e st = (st1, none) →
        st1.result.CreatedFiles = st.result.CreatedFiles ++ specCreatedFiles rel e) ∧
    Except.map ProcessResult.CreatedFiles
      (process [("project", "acme")] "out"
        (.dir "tmpl" [.dir "\x7b\x7b.project\x7d\x7d"
          [.file "main.txt" "pkg=\x7b\x7b.project\x7d\x7d"]])).2 =
      Except.ok ["\x7b\x7b.project\x7d\x7d/main.txt"] := by
  refine ⟨?_, by decide⟩
  intro rel e st st1 h
  exact ((walk_result_spec vars out).1 rel e st st1 h).1

/-- Claim C5, witness: the general part of the claim instantiated at
Scenario B — the recorded path is the unrendered one. -/
theorem claim5_witness :
    (⟨⟨1, 2, ["\x7b\x7b.project\x7d\x7d/main.txt"]⟩,
      [.mkdirAll "out", .mkdirAll "out/acme", .mkdirAll "out/acme",
       .writeFile "out/acme/main.txt" "pkg=acme"]⟩ : WalkState).result.CreatedFiles =
      (⟨⟨0, 0, []⟩, []⟩ : WalkState).result.CreatedFiles ++
        specCreatedFiles "."
          (.dir "tmpl" [.dir "\x7b\x7b.project\x7d\x7d"
            [.file "main.txt" "pkg=\x7b\x7b.project\x7d\x7d"]]) :=
  (claim5_theorem [("project", "acme")] "out").1 "."
    (.dir "tmpl" [.dir "\x7b\x7b.project\x7d\x7d"
      [.file "main.txt" "pkg=\x7b\x7b.project\x7d\x7d"]])
    ⟨⟨0, 0, []⟩, []⟩ _ (by decide)

/-- Claim C6: an entry whose joined output path renders to `p` is
materialized at `p` — a directory's first new mutation is `MkdirAll p`,
and a file is written at `p` (after ensuring `p`'s parent) with its
rendered content — never at the literal template name. -/
theorem claim6_theorem (vars : List (String × String)) (out rel : String) (st : WalkState)
    (p : String) (hp : processString vars (joinPath out rel) = .ok p) :
    (∀ (nm : String) (children : List FSEntry), ¬ nm = TemplateConfigFile →
        ∃ tl, ((walkEntry vars out rel (.dir nm children) st).1).effects =
          st.effects ++ .mkdirAll p :: tl) ∧
    (∀ (nm content rendered : String), ¬ nm = TemplateConfigFile →
        processString vars content = .ok rendered →
        walkEntry vars out rel (.file nm content) st =
          (⟨{ st.result with
                FilesCreated := st.result.FilesCreated + 1,
                CreatedFiles := st.result.CreatedFiles ++ [rel] },
            st.effects ++ [.mkdirAll (parentDir p), .writeFile p rendered]⟩, none)) := by
  constructor
  · intro nm children hne
    rw [walkEntry_dir_ok vars out rel nm children st p hne hp]
    rcases (walk_effects_extend vars out).2 rel children
        ⟨{ st.result with DirsCreated := st.result.DirsCreated + 1 },
         st.effects ++ [.mkdirAll p]⟩ with ⟨tl, htl⟩
    exact ⟨tl, by rw [htl]; simp⟩
  · intro nm content rendered hne hr
    have hf : processFile vars content p =
        .ok [.mkdirAll (parentDir p), .writeFile p rendered] := by
      unfold processFile
      rw [hr]
    exact walkEntry_file_ok vars out rel nm content st p _ hne hp hf

/-- Claim C6, witness: a file at the placeholder-bearing relative path
renders to `out/acme` and is written there, not at the literal name. -/
theorem claim6_witness :
    walkEntry [("project", "acme")] "out" "\x7b\x7b.project\x7d\x7d"
        (.file "f.txt" "hi") ⟨⟨0, 0, []⟩, []⟩ =
      (⟨⟨1, 0, ["\x7b\x7b.project\x7d\x7d"]⟩,
        [.mkdirAll "out", .writeFile "out/acme" "hi"]⟩, none) := by
  have h := (claim6_theorem [("project", "acme")] "out" "\x7b\x7b.project\x7d\x7d"
    ⟨⟨0, 0, []⟩, []⟩ "out/acme" (by decide)).2 "f.txt" "hi" "hi" (by decide) (by decide)
  simpa using h

/-- Claim C7: an entry named `template.toml` is never written, never
counted and never recorded: a so-named file leaves the walk state
untouched, a so-named directory contributes no creation or count of its
own, and a template holding only the descriptor yields
`FilesCreated = 0` with no write at all. -/
theorem claim7_theorem :
    (∀ (vars : List (String × String)) (out rel content : String) (st : WalkState),
        walkEntry vars out rel (.file TemplateConfigFile content) st = (st, none)) ∧
    (∀ (vars : List (String × String)) (out rel : String) (children : List FSEntry)
        (st : WalkState),
        walkEntry vars out rel (.dir TemplateConfigFile children) st =
          walkChildren vars out rel children st) ∧
    process [] "out" (.dir "tmpl" [.file "template.toml" "[metadata]"]) =
      ([.mkdirAll "out"], Except.ok ⟨0, 1, []⟩) := by
  refine ⟨?_, ?_, by decide⟩
  · intro vars out rel content st
    exact walkEntry_file_skip vars out rel content st
  · intro vars out rel children st
    exact walkEntry_dir_skip vars out rel children st

/-- Claim C8: rendering content with no placeholders or control
structures (no action opener) is the identity, so the bytes
`processFile` writes are exactly the input file's bytes. -/
theorem claim8_theorem (vars : List (String × String)) (content : String)
    (h : noOpen content.data = true) :
    processString vars content = Except.ok content ∧
    ∀ p : String, processFile vars content p =
      .ok [.mkdirAll (parentDir p), .writeFile p content] := by
  have hid := processString_noOpen vars content h
  refine ⟨hid, ?_⟩
  intro p
  unfold processFile
  rw [hid]

/-- Claim C8, witness: plain text is written back verbatim. -/
theorem claim8_witness :
    processString [("name", "World")] "plain text, no actions." =
      Except.ok "plain text, no actions." ∧
    processFile [("name", "World")] "plain text, no actions." "out/doc.txt" =
      .ok [.mkdirAll "out", .writeFile "out/doc.txt" "plain text, no actions."] := by
  have h := claim8_theorem [("name", "World")] "plain text, no actions." (by decide)
  exact ⟨h.1, h.2 "out/doc.txt"⟩

/-- Claim C9, counterexample: with the binding `x ↦ ../tmpl/evil` a
directory whose name is a field action for `x` renders to the output
path `out/../tmpl/evil`, and the walk performs `MkdirAll` on it — a
mutation whose cleaned path `tmpl/evil` is not under the output root
`out` and lies inside the template root `tmpl`, contradicting the claim
as stated. -/
theorem claim9_counterexample :
    process [("x", "../tmpl/evil")] "out" (.dir "tmpl" [.dir "\x7b\x7b.x\x7d\x7d" []]) =
      ([.mkdirAll "out", .mkdirAll "out/../tmpl/evil"], Except.ok ⟨0, 2, []⟩) ∧
    normalizePath "out/../tmpl/evil" = "tmpl/evil" ∧
    underDir "out" (normalizePath "out/../tmpl/evil") = false ∧
    underDir "tmpl" (normalizePath "out/../tmpl/evil") = true := by
  refine ⟨by decide, by decide, by decide, by decide⟩

/-- Claim C9, amended: every mutation targets a rendered joined output
path; when the output root and all entry names below the template root
are placeholder-free, every mutation lies under the output root, and
none touches a template root that is lexically disjoint from the output
root.  (Rendered binding values containing `..` can escape the output
root, as the counterexample shows, so the restriction is necessary.) -/
theorem claim9_theorem (vars : List (String × String)) (out tDir rnm : String)
    (children : List FSEntry)
    (hout : noOpen out.data = true) (hnames : namesOKL children = true)
    (hdis1 : underDir out tDir = false) (hdis2 : underDir tDir out = false)
    (hneq : ¬ tDir = out) :
    ∀ op ∈ (process vars out (.dir rnm children)).1,
      underDir out (opPath op) = true ∧ underDir tDir (opPath op) = false := by
  intro op hop
  rw [process_fst] at hop
  have hdotall : (".".data.all (fun c => !(c == '{'))) = true := by decide
  have hunder : underDir out (opPath op) = true := by
    by_cases hroot : rnm = TemplateConfigFile
    · subst hroot
      rw [walkEntry_dir_skip] at hop
      exact (walk_effects_under vars out hout).2 "." children ⟨⟨0, 0, []⟩, []⟩
        hdotall hnames (by intro o ho; cases ho) op hop
    · have hjoin : joinPath out "." = out := rfl
      have hpok : processString vars (joinPath out ".") = .ok out := by
        rw [hjoin]
        exact processString_noOpen vars out hout
      rw [walkEntry_dir_ok vars out "." rnm children ⟨⟨0, 0, []⟩, []⟩ out hroot hpok] at hop
      refine (walk_effects_under vars out hout).2 "." children
        ⟨{ (⟨⟨0, 0, []⟩, []⟩ : WalkState).result with DirsCreated := 0 + 1 },
         ([] : List FSOp) ++ [.mkdirAll out]⟩ hdotall hnames ?_ op hop
      intro o ho
      simp only [List.nil_append, List.mem_singleton] at ho
      subst ho
      exact underDir_self out
  exact ⟨hunder, not_under_of_disjoint out tDir (opPath op) hunder hdis1 hdis2 hneq⟩

/-- Claim C9, witness: the amended claim at a placeholder-free template
tree — the subdirectory mkdir targets a path under `out` and not under
the template root `tmplroot`. -/
theorem claim9_witness :
    underDir "out" (opPath (FSOp.mkdirAll "out/sub")) = true ∧
    underDir "tmplroot" (opPath (FSOp.mkdirAll "out/sub")) = false :=
  claim9_theorem [("x", "v")] "out" "tmplroot" "tmpl"
    [.dir "sub" [.file "a.txt" "hi"]]
    (by decide) (by decide) (by decide) (by decide) (by decide)
    (FSOp.mkdirAll "out/sub") (by decide)

/-- Claim C10: a directory named `template.toml` is skipped as an entry
(no creation of its own, no count) while the walk still descends: its
subtree behaves exactly as if walked directly, and in the concrete
instance the descendant file is rendered and written at its rendered
output path while `DirsCreated` counts only the root. -/
theorem claim10_theorem :
    (∀ (vars : List (String × String)) (out rel : String) (children : List FSEntry)
        (st : WalkState),
        walkEntry vars out rel (.dir TemplateConfigFile children) st =
          walkChildren vars out rel children st) ∧
    process [] "out" (.dir "tmpl" [.dir "template.toml" [.file "a.txt" "hi"]]) =
      ([.mkdirAll "out", .mkdirAll "out/template.toml",
        .writeFile "out/template.toml/a.txt" "hi"],
       Except.ok ⟨1, 1, ["template.toml/a.txt"]⟩) := by
  refine ⟨?_, by decide⟩
  intro vars out rel children st
  exact walkEntry_dir_skip vars out rel children st
